import Mathlib

/-!
Verification of the `average_reports` function of
`src/mltoolbox/metrics/utils/utils.py` (the MLToolbox repository).

The function consumes a list of classification reports — pandas DataFrames
indexed by row label with columns `precision`, `recall`, `f1-score`,
`support` — and produces one consolidated report.  We model a DataFrame as an
ordered list of column names (duplicates allowed, as they arise from
`pd.concat(axis=1)`) together with an ordered list of rows, each carrying its
label and its cell values.  Numeric cells are modelled as `ℚ`; the float64
representation itself is not modelled, and the two places where pandas dtypes
are observable (`round(2)` and `astype(int)`) are modelled as exact rational
operations, with the integer dtype of the cast `support` column recorded in
the cell type `Val`.

`pd.concat(reports, axis=1)` aligns rows by index label; for reports sharing
one row-label list — the situation every claim quantifies over, and the only
one whose behaviour the spec defines — this alignment is positional
juxtaposition, which is what `concatAxis1` implements.  Behaviour under
misaligned indexes (the outer join of pandas) is outside the modelled scope.
-/

/-- A pandas DataFrame as `average_reports` manipulates it: ordered column
names (duplicates allowed) and ordered rows of label and rational cells. -/
structure DF where
  colNames : List String
  rows : List (String × List ℚ)
deriving DecidableEq, Repr

/-- A cell of the final, typed table: float64 cells are `Val.f`, int64 cells
(the `support` column after `astype(int)`) are `Val.i`. -/
inductive Val where
  | f (q : ℚ)
  | i (z : ℤ)
deriving DecidableEq, Repr

/-- The failure modes of `average_reports`, named after the spec's error
taxonomy where it has a name.  `emptyInput` is the `ValueError` raised by
`pd.concat` on an empty list; `malformedReport` the `KeyError` on a missing
required column; `axisError` the `ValueError` raised by
`Series.sum(axis=1)` / `Series.mean(axis=1)` when exactly one column carries
the aggregated name (then `df[name]` is a Series, which has no axis 1);
`missingSummaryRow` the `KeyError` raised when dropping or selecting the
`macro avg` / `weighted avg` rows while one of them is absent. -/
inductive Err where
  | emptyInput
  | malformedReport
  | axisError
  | missingSummaryRow
deriving DecidableEq, Repr

/-- The documented column layout of a classification report. -/
def stdCols : List String := ["precision", "recall", "f1-score", "support"]

/-- One row of `df[name]`: the cells of the columns of `cn` named `name`. -/
def selectVals (cn : List String) (name : String) (vs : List ℚ) : List ℚ :=
  ((cn.zip vs).filter (fun p => p.1 == name)).map Prod.snd

/-- One row of the assignment `df[name] = s`: every cell in a column named
`name` is replaced by `a` (pandas broadcasts over duplicate columns). -/
def setVals (cn : List String) (name : String) (a : ℚ) (vs : List ℚ) : List ℚ :=
  (cn.zip vs).map (fun p => if p.1 == name then a else p.2)

/-- The effect of `df[name] = df[name].agg(axis=1)` on one row: the cells of
the columns named `name` are aggregated row-wise and written back to each of
those columns. -/
def rowStep (cn : List String) (name : String) (agg : List ℚ → ℚ) (vs : List ℚ) : List ℚ :=
  setVals cn name (agg (selectVals cn name vs)) vs

/-- Row-wise sum, as in `DataFrame.sum(axis=1)`. -/
def sumQ (l : List ℚ) : ℚ := l.sum

/-- Row-wise arithmetic mean, as in `DataFrame.mean(axis=1)`. -/
def meanQ (l : List ℚ) : ℚ := l.sum / l.length

/-- Model of `pd.concat(reports, axis=1)` for reports sharing one row-label list:
columns are juxtaposed in report order and row `i` of the result collects
row `i` of every report.  An empty input list raises (`emptyInput`). -/
def concatAxis1 (reports : List DF) : Except Err DF :=
  match reports with
  | [] => .error .emptyInput
  | d :: _ =>
    .ok { colNames := (reports.map DF.colNames).flatten
        , rows := (List.range d.rows.length).map (fun i =>
            ((d.rows.getD i ("", [])).1,
             (reports.map (fun r => (r.rows.getD i ("", [])).2)).flatten)) }

/-- Number of columns of `df` named `name`. -/
def DF.colCount (df : DF) (name : String) : Nat :=
  df.colNames.countP (fun n => n == name)

/-- Model of `df[name] = df[name].agg(axis=1)` (lines 33-36 of the source): all columns
named `name` are replaced by the row-wise aggregate of those columns.  A
missing name raises `KeyError` (`malformedReport`); a unique name makes
`df[name]` a Series, whose `sum(1)` / `mean(1)` raises `ValueError`
(`axisError`). -/
def DF.aggSet (df : DF) (name : String) (agg : List ℚ → ℚ) : Except Err DF :=
  if df.colCount name = 0 then .error .malformedReport
  else if df.colCount name = 1 then .error .axisError
  else .ok { df with rows := df.rows.map (fun r =>
    (r.1, rowStep df.colNames name agg r.2)) }

/-- Model of `pd.DataFrame(df.values[:, :n], index=df.index, columns=df.columns[:n])`
(line 38): keep the first `n` columns positionally. -/
def DF.takeCols (df : DF) (n : Nat) : DF :=
  { colNames := df.colNames.take n
  , rows := df.rows.map (fun r => (r.1, r.2.take n)) }

/-- Model of the membership test `l in df.index`. -/
def DF.hasRow (df : DF) (l : String) : Bool :=
  df.rows.any (fun r => r.1 == l)

/-- Model of `df.drop(index=[l])` for a label known to be present. -/
def DF.dropRow (df : DF) (l : String) : DF :=
  { df with rows := df.rows.filter (fun r => !(r.1 == l)) }

/-- Model of the conditional drop (lines 39-42). -/
def DF.dropRowIf (df : DF) (l : String) : DF :=
  if df.hasRow l then df.dropRow l else df

/-- Model of `df.drop(index=ls)` with the default raising behaviour (line 43): `none`
when any of the labels is absent (pandas raises `KeyError`). -/
def DF.dropRowsStrict (df : DF) (ls : List String) : Option DF :=
  if ls.all (fun l => df.hasRow l) then
    some { df with rows := df.rows.filter (fun r => !(ls.contains r.1)) }
  else none

/-- Position of the first column named `name`. -/
def DF.colPos (df : DF) (name : String) : Option Nat :=
  df.colNames.findIdx? (fun n => n == name)

/-- The comparator of the descending sort on the `support` column (position 3
of the retained columns): row `a` may precede row `b` when the key of `b` is
at most the key of `a`.  Any sort under this comparator orders rows by
decreasing key; the relative order of rows with equal keys is a separate
question, settled by the choice of sorting algorithm and addressed at
`DF.sortValsDesc`. -/
def supLE (a b : String × List ℚ) : Bool :=
  decide ((b.2.getD 3 0) ≤ (a.2.getD 3 0))

/-- Model of `df.sort_values(name, ascending=False)` (line 44): a descending
sort of the rows on the first column named `name`; `none` when no column is
named `name` (pandas raises `KeyError`).  The source leaves `kind` at its
default `quicksort` (numpy introsort), which does not specify the relative
order of rows with equal keys: it coincides with the stable order only on
small arrays, where numpy falls back to insertion sort.  The model must pick
some definite tie order and uses `List.mergeSort`, i.e. the stable one; this
is a modelling choice, not a property of the program, and every theorem
proved below about the sorted table has a conclusion that is insensitive to
the tie order (sortedness by key, membership, the multiset of rows, and
per-label cell values under distinct labels are invariant under permuting
equal-key rows). -/
def DF.sortValsDesc (df : DF) (name : String) : Option DF :=
  (df.colPos name).map (fun j =>
    { df with rows :=
        df.rows.mergeSort (fun a b => decide ((b.2.getD j 0) ≤ (a.2.getD j 0))) })

/-- Model of `df.loc[ls]` (line 46): the rows labelled by `ls`, in the order of `ls`;
`none` when a label is absent (pandas raises `KeyError`).  For the unique
labels the claims quantify over, the first match is the row. -/
def DF.locRows (df : DF) (ls : List String) : Option (List (String × List ℚ)) :=
  ls.mapM (fun l => df.rows.find? (fun r => r.1 == l))

/-- Round to two decimal places, half away from zero on non-negatives
(`round x = ⌊x + 1/2⌋`).  `DataFrame.round(2)` rounds float64 cells to two
decimals; the spec leaves the tie-breaking rule open and no claim depends on
a tie. -/
def round2 (q : ℚ) : ℚ := (round (q * 100) : ℤ) / 100

/-- Model of `report_final[cols] = report_final[cols].round(2)` (lines 47-48) for the
pairwise-distinct column names `cols`: cells of the named columns are
rounded. -/
def DF.roundCols (df : DF) (names : List String) : DF :=
  { df with rows := df.rows.map (fun r =>
      (r.1, (df.colNames.zip r.2).map
        (fun p => if names.contains p.1 then round2 p.2 else p.2))) }

/-- Model of the float-to-int conversion of numpy, which truncates toward zero. -/
def truncInt (q : ℚ) : ℤ := if 0 ≤ q then ⌊q⌋ else ⌈q⌉

/-- The typed final table after
`report_final[['support']] = report_final[['support']].astype(int)`
(line 49): cells of columns named `name` become int64, all others stay
float64. -/
structure DFV where
  colNames : List String
  rows : List (String × List Val)
deriving DecidableEq, Repr

/-- The `astype(int)` step producing the typed final table. -/
def DF.astypeIntCols (df : DF) (name : String) : DFV :=
  { colNames := df.colNames
  , rows := df.rows.map (fun r =>
      (r.1, (df.colNames.zip r.2).map
        (fun p => if p.1 == name then Val.i (truncInt p.2) else Val.f p.2))) }

/-- Model of `average_reports` (lines 32-49 of `src/mltoolbox/metrics/utils/utils.py`):
the consolidated table `report_final` as it stands when the output
representation is chosen (line 50).  Both output modes render this table;
`average_reports_dict` below is the `output_dict=True` branch, and the
`output_dict=False` branch is `report_final.to_string()`, a fixed-width
rendering of the same table that no claim inspects. -/
def average_reports (reports : List DF) : Except Err DFV := do
  let df0 ← concatAxis1 reports
  let df1 ← df0.aggSet "support" sumQ
  let df2 ← df1.aggSet "precision" meanQ
  let df3 ← df2.aggSet "recall" meanQ
  let df4 ← df3.aggSet "f1-score" meanQ
  let df5 := df4.takeCols 4
  let df6 := df5.dropRowIf "micro avg"
  let df7 := df6.dropRowIf "accuracy"
  (df7.dropRowsStrict ["macro avg", "weighted avg"]).elim (.error .missingSummaryRow)
    (fun dropped =>
      (dropped.sortValsDesc "support").elim (.error .malformedReport)
        (fun sorted =>
          (df7.locRows ["macro avg", "weighted avg"]).elim (.error .missingSummaryRow)
            (fun tail =>
              let rf : DF := { colNames := sorted.colNames, rows := sorted.rows ++ tail }
              let rf2 := rf.roundCols (rf.colNames.take 3)
              .ok (rf2.astypeIntCols "support"))))

/-- Model of `report_final.T.to_dict()` (line 51): row label to the association of
column name and cell value, rows and columns in table order. -/
def DFV.to_dict (t : DFV) : List (String × List (String × Val)) :=
  t.rows.map (fun r => (r.1, t.colNames.zip r.2))

/-- The `output_dict=True` result of `average_reports`. -/
def average_reports_dict (reports : List DF) :
    Except Err (List (String × List (String × Val))) :=
  (average_reports reports).map DFV.to_dict

/-- Cell of the row of `df` labelled `l` at column position `j` (0 when the
row or the cell is absent; the claims only use it where both exist). -/
def DF.cellAt (df : DF) (l : String) (j : Nat) : ℚ :=
  ((df.rows.find? (fun r => r.1 == l)).getD ("", [])).2.getD j 0

/-- The summed support of label `l` across `reports` (column position 3 under
the documented layout). -/
def sumSupport (reports : List DF) (l : String) : ℚ :=
  sumQ (reports.map (fun r => r.cellAt l 3))

/-- The mean of metric column `j` of label `l` across `reports`. -/
def meanMetric (reports : List DF) (j : Nat) (l : String) : ℚ :=
  meanQ (reports.map (fun r => r.cellAt l j))

/-- The four labels that `average_reports` treats specially. -/
def specialLabels : List String := ["micro avg", "accuracy", "macro avg", "weighted avg"]

/-- The class labels, in input order: the shared labels without the four
special rows. -/
def keptLabels (labels : List String) : List String :=
  labels.filter (fun l => !(specialLabels.contains l))

/-- The aggregated pre-rounding cells of label `l`: the three column means
and the summed support. -/
def aggRow (reports : List DF) (l : String) : List ℚ :=
  [meanMetric reports 0 l, meanMetric reports 1 l, meanMetric reports 2 l,
   sumSupport reports l]

/-- The final rounding and integer cast of one aggregated row. -/
def roundCastRow (vs : List ℚ) : List Val :=
  match vs with
  | [a, b, c, d] => [Val.f (round2 a), Val.f (round2 b), Val.f (round2 c), Val.i (truncInt d)]
  | _ => []

/-- The documented input contract: every report carries the four standard
columns, the shared row-label list `labels` with one full row of four cells
per label, and the labels are pairwise distinct. -/
def ValidReports (reports : List DF) (labels : List String) : Prop :=
  (∀ r ∈ reports, r.colNames = stdCols) ∧
  (∀ r ∈ reports, r.rows.map Prod.fst = labels) ∧
  (∀ r ∈ reports, ∀ p ∈ r.rows, p.2.length = 4) ∧
  labels.Nodup

instance (reports : List DF) (labels : List String) :
    Decidable (ValidReports reports labels) := by
  unfold ValidReports
  infer_instance

/-! ### Helper lemmas about the row and column primitives -/

theorem length_four_eq {l : List ℚ} (h : l.length = 4) :
    l = [l.getD 0 0, l.getD 1 0, l.getD 2 0, l.getD 3 0] := by
  match l, h with
  | [a, b, c, d], _ => rfl

theorem except_bind_ok {α β : Type} (a : α) (f : α → Except Err β) :
    (Except.ok a >>= f) = f a := rfl

theorem selectVals_append {cn₁ cn₂ : List String} {vs₁ vs₂ : List ℚ} (name : String)
    (h : cn₁.length = vs₁.length) :
    selectVals (cn₁ ++ cn₂) name (vs₁ ++ vs₂)
      = selectVals cn₁ name vs₁ ++ selectVals cn₂ name vs₂ := by
  simp [selectVals, List.zip_append h, List.filter_append]

theorem setVals_append {cn₁ cn₂ : List String} {vs₁ vs₂ : List ℚ} (name : String) (a : ℚ)
    (h : cn₁.length = vs₁.length) :
    setVals (cn₁ ++ cn₂) name a (vs₁ ++ vs₂)
      = setVals cn₁ name a vs₁ ++ setVals cn₂ name a vs₂ := by
  simp [setVals, List.zip_append h]

theorem selectVals_flatten4 {α : Type} (qs : List α) (e0 e1 e2 e3 : α → ℚ) (name : String) :
    selectVals ((qs.map (fun _ => stdCols)).flatten) name
        ((qs.map (fun q => [e0 q, e1 q, e2 q, e3 q])).flatten)
      = (qs.map (fun q => selectVals stdCols name [e0 q, e1 q, e2 q, e3 q])).flatten := by
  induction qs with
  | nil => rfl
  | cons q tl ih =>
    simp only [List.map_cons, List.flatten_cons]
    rw [selectVals_append name (by rfl), ih]

theorem setVals_flatten4 {α : Type} (qs : List α) (e0 e1 e2 e3 : α → ℚ) (name : String)
    (a : ℚ) :
    setVals ((qs.map (fun _ => stdCols)).flatten) name a
        ((qs.map (fun q => [e0 q, e1 q, e2 q, e3 q])).flatten)
      = (qs.map (fun q => setVals stdCols name a [e0 q, e1 q, e2 q, e3 q])).flatten := by
  induction qs with
  | nil => rfl
  | cons q tl ih =>
    simp only [List.map_cons, List.flatten_cons]
    rw [setVals_append name a (by rfl), ih]

theorem flatten_map_singleton {α : Type} (qs : List α) (f : α → ℚ) :
    (qs.map (fun q => [f q])).flatten = qs.map f := by
  induction qs with
  | nil => rfl
  | cons q tl ih => simp [ih]

theorem selectVals_std_precision (a b c d : ℚ) :
    selectVals stdCols "precision" [a, b, c, d] = [a] := by
  simp [selectVals, stdCols]

theorem selectVals_std_recall (a b c d : ℚ) :
    selectVals stdCols "recall" [a, b, c, d] = [b] := by
  simp [selectVals, stdCols]

theorem selectVals_std_f1 (a b c d : ℚ) :
    selectVals stdCols "f1-score" [a, b, c, d] = [c] := by
  simp [selectVals, stdCols]

theorem selectVals_std_support (a b c d : ℚ) :
    selectVals stdCols "support" [a, b, c, d] = [d] := by
  simp [selectVals, stdCols]

theorem setVals_std_precision (x a b c d : ℚ) :
    setVals stdCols "precision" x [a, b, c, d] = [x, b, c, d] := by
  simp [setVals, stdCols]

theorem setVals_std_recall (x a b c d : ℚ) :
    setVals stdCols "recall" x [a, b, c, d] = [a, x, c, d] := by
  simp [setVals, stdCols]

theorem setVals_std_f1 (x a b c d : ℚ) :
    setVals stdCols "f1-score" x [a, b, c, d] = [a, b, x, d] := by
  simp [setVals, stdCols]

theorem setVals_std_support (x a b c d : ℚ) :
    setVals stdCols "support" x [a, b, c, d] = [a, b, c, x] := by
  simp [setVals, stdCols]

theorem countP_flatten_replicate (k : Nat) (cs : List String) (p : String → Bool) :
    ((List.replicate k cs).flatten.countP p) = k * cs.countP p := by
  induction k with
  | zero => simp
  | succ n ih => simp [List.replicate_succ, ih, Nat.succ_mul, Nat.add_comm]

theorem find_row_of_map_fst {ps : List (String × List ℚ)} {L : List String}
    (h : ps.map Prod.fst = L) (hnd : L.Nodup) {i : Nat} (hi : i < L.length) :
    ps.find? (fun p => p.1 == L.getD i "") = some (ps.getD i ("", [])) := by
  induction ps generalizing L i with
  | nil =>
    subst h
    simp at hi
  | cons p tl ih =>
    subst h
    rcases i with _ | j
    · simp
    · have hnotin : p.1 ∉ tl.map Prod.fst := (List.nodup_cons.mp hnd).1
      have hj : j < (tl.map Prod.fst).length := by
        simpa using Nat.lt_of_succ_lt_succ hi
      have hmem : (tl.map Prod.fst).getD j "" ∈ tl.map Prod.fst := by
        rw [List.getD_eq_getElem _ _ hj]
        exact List.getElem_mem hj
      have hne : ¬(p.1 == (tl.map Prod.fst).getD j "") = true := by
        simp only [beq_iff_eq]
        intro hc
        exact hnotin (hc ▸ hmem)
      have e1 : (List.map Prod.fst (p :: tl)).getD (j + 1) ""
          = (List.map Prod.fst tl).getD j "" := by
        simp only [List.map_cons, List.getD_cons_succ]
      rw [e1]
      rw [@List.find?_cons_of_neg _ (fun r => r.1 == (List.map Prod.fst tl).getD j "") p tl hne]
      rw [List.getD_cons_succ]
      exact ih rfl (List.nodup_cons.mp hnd).2 hj

theorem dropRowIf_eq (df : DF) (l : String) :
    df.dropRowIf l = { df with rows := df.rows.filter (fun r => !(r.1 == l)) } := by
  unfold DF.dropRowIf DF.dropRow
  by_cases h : df.hasRow l
  · simp [h]
  · simp only [h, Bool.false_eq_true, if_false]
    have hall : ∀ r ∈ df.rows, (!(r.1 == l)) = true := by
      intro r hr
      unfold DF.hasRow at h
      simp only [List.any_eq_true, not_exists, not_and, Bool.not_eq_true] at h
      simp [h r hr]
    cases df with
    | mk cn rws => simp [List.filter_eq_self.mpr hall]

theorem hasRow_map_mk (cn : List String) (L : List String) (g : String → List ℚ)
    (x : String) :
    (DF.hasRow { colNames := cn, rows := L.map (fun l => (l, g l)) } x) = L.any (fun l => l == x) := by
  unfold DF.hasRow
  induction L with
  | nil => rfl
  | cons a tl ih => simp only [List.map_cons, List.any_cons, ih]

theorem find?_map_mk {L : List String} (g : String → List ℚ) {x : String} (hx : x ∈ L) :
    (L.map (fun l => (l, g l))).find? (fun r => r.1 == x) = some (x, g x) := by
  induction L with
  | nil => cases hx
  | cons a tl ih =>
    by_cases hax : (a == x) = true
    · have : a = x := by simpa using hax
      subst this
      simp
    · rw [List.map_cons]
      rw [@List.find?_cons_of_neg _ (fun r => r.1 == x) (a, g a) _ (by simpa using hax)]
      apply ih
      rcases List.mem_cons.mp hx with h | h
      · exact absurd h.symm (by simpa using hax)
      · exact h

theorem filter_map_mk (L : List String) (g : String → List ℚ) (q : String × List ℚ → Bool)
    (p : String → Bool) (h : ∀ l, q (l, g l) = p l) :
    ((L.map (fun l => (l, g l))).filter q) = (L.filter p).map (fun l => (l, g l)) := by
  rw [List.filter_map]
  congr 1
  apply List.filter_congr
  intro l _
  exact h l

theorem colNames_flatten_count (reports : List DF)
    (hcols : ∀ r ∈ reports, r.colNames = stdCols) (p : String → Bool) :
    ((reports.map DF.colNames).flatten).countP p = reports.length * stdCols.countP p := by
  rw [List.map_congr_left hcols, List.map_const']
  exact countP_flatten_replicate _ _ _

theorem colNames_flatten_std (reports : List DF)
    (hcols : ∀ r ∈ reports, r.colNames = stdCols) :
    (reports.map DF.colNames).flatten = (List.replicate reports.length stdCols).flatten := by
  rw [List.map_congr_left hcols, List.map_const']

theorem rowStep_support {α : Type} (reports : List α) (e0 e1 e2 e3 : α → ℚ)
    (agg : List ℚ → ℚ) :
    rowStep ((reports.map (fun _ => stdCols)).flatten) "support" agg
        ((reports.map (fun r => [e0 r, e1 r, e2 r, e3 r])).flatten)
      = (reports.map (fun r => [e0 r, e1 r, e2 r, agg (reports.map e3)])).flatten := by
  unfold rowStep
  rw [selectVals_flatten4]
  simp only [selectVals_std_support]
  rw [flatten_map_singleton]
  rw [setVals_flatten4]
  simp only [setVals_std_support]

theorem rowStep_precision {α : Type} (reports : List α) (e0 e1 e2 e3 : α → ℚ)
    (agg : List ℚ → ℚ) :
    rowStep ((reports.map (fun _ => stdCols)).flatten) "precision" agg
        ((reports.map (fun r => [e0 r, e1 r, e2 r, e3 r])).flatten)
      = (reports.map (fun r => [agg (reports.map e0), e1 r, e2 r, e3 r])).flatten := by
  unfold rowStep
  rw [selectVals_flatten4]
  simp only [selectVals_std_precision]
  rw [flatten_map_singleton]
  rw [setVals_flatten4]
  simp only [setVals_std_precision]

theorem rowStep_recall {α : Type} (reports : List α) (e0 e1 e2 e3 : α → ℚ)
    (agg : List ℚ → ℚ) :
    rowStep ((reports.map (fun _ => stdCols)).flatten) "recall" agg
        ((reports.map (fun r => [e0 r, e1 r, e2 r, e3 r])).flatten)
      = (reports.map (fun r => [e0 r, agg (reports.map e1), e2 r, e3 r])).flatten := by
  unfold rowStep
  rw [selectVals_flatten4]
  simp only [selectVals_std_recall]
  rw [flatten_map_singleton]
  rw [setVals_flatten4]
  simp only [setVals_std_recall]

theorem rowStep_f1 {α : Type} (reports : List α) (e0 e1 e2 e3 : α → ℚ)
    (agg : List ℚ → ℚ) :
    rowStep ((reports.map (fun _ => stdCols)).flatten) "f1-score" agg
        ((reports.map (fun r => [e0 r, e1 r, e2 r, e3 r])).flatten)
      = (reports.map (fun r => [e0 r, e1 r, agg (reports.map e2), e3 r])).flatten := by
  unfold rowStep
  rw [selectVals_flatten4]
  simp only [selectVals_std_f1]
  rw [flatten_map_singleton]
  rw [setVals_flatten4]
  simp only [setVals_std_f1]

theorem row_agg {α : Type} (reports : List α) (e0 e1 e2 e3 : α → ℚ)
    (hne : reports ≠ []) :
    (rowStep ((reports.map (fun _ => stdCols)).flatten) "f1-score" meanQ
      (rowStep ((reports.map (fun _ => stdCols)).flatten) "recall" meanQ
        (rowStep ((reports.map (fun _ => stdCols)).flatten) "precision" meanQ
          (rowStep ((reports.map (fun _ => stdCols)).flatten) "support" sumQ
            ((reports.map (fun r => [e0 r, e1 r, e2 r, e3 r])).flatten))))).take 4
    = [meanQ (reports.map e0), meanQ (reports.map e1), meanQ (reports.map e2),
       sumQ (reports.map e3)] := by
  obtain ⟨r, rest, rfl⟩ := List.exists_cons_of_ne_nil hne
  rw [rowStep_support, rowStep_precision, rowStep_recall, rowStep_f1]
  rw [List.map_cons, List.flatten_cons]
  rw [List.take_left' (by rfl)]

theorem aggSet_ok (df : DF) (name : String) (agg : List ℚ → ℚ)
    (h : 2 ≤ df.colCount name) :
    df.aggSet name agg = Except.ok
      { df with rows := df.rows.map (fun r => (r.1, rowStep df.colNames name agg r.2)) } := by
  unfold DF.aggSet
  rw [if_neg (by omega), if_neg (by omega)]

theorem dropRowsStrict_some (df : DF) (ls : List String)
    (h : ∀ l ∈ ls, df.hasRow l) :
    df.dropRowsStrict ls
      = some { df with rows := df.rows.filter (fun r => !(ls.contains r.1)) } := by
  unfold DF.dropRowsStrict
  rw [if_pos (List.all_eq_true.mpr h)]

theorem sortValsDesc_std (df : DF) (hc : df.colNames = stdCols) :
    df.sortValsDesc "support" = some { df with rows := df.rows.mergeSort supLE } := by
  unfold DF.sortValsDesc DF.colPos
  rw [hc]
  rfl

theorem aggSet_ok_mk (cn : List String) (rws : List (String × List ℚ)) (name : String)
    (agg : List ℚ → ℚ) (h : 2 ≤ cn.countP (fun n => n == name)) :
    (DF.mk cn rws).aggSet name agg
      = Except.ok (DF.mk cn (rws.map (fun r => (r.1, rowStep cn name agg r.2)))) :=
  aggSet_ok _ _ _ h

theorem takeCols_mk (cn : List String) (rws : List (String × List ℚ)) (n : Nat) :
    (DF.mk cn rws).takeCols n = DF.mk (cn.take n) (rws.map (fun r => (r.1, r.2.take n))) := rfl

theorem dropRowIf_mk (cn : List String) (rws : List (String × List ℚ)) (l : String) :
    (DF.mk cn rws).dropRowIf l = DF.mk cn (rws.filter (fun r => !(r.1 == l))) :=
  dropRowIf_eq _ _

theorem dropRowsStrict_some_mk (cn : List String) (rws : List (String × List ℚ))
    (ls : List String) (h : ∀ l ∈ ls, (DF.mk cn rws).hasRow l) :
    (DF.mk cn rws).dropRowsStrict ls
      = some (DF.mk cn (rws.filter (fun r => !(ls.contains r.1)))) :=
  dropRowsStrict_some _ _ h

theorem sortValsDesc_std_mk (rws : List (String × List ℚ)) :
    (DF.mk stdCols rws).sortValsDesc "support" = some (DF.mk stdCols (rws.mergeSort supLE)) :=
  sortValsDesc_std _ rfl

theorem locRows_pair_mk (cn : List String) (rws : List (String × List ℚ))
    (a b : String) (ra rb : String × List ℚ)
    (ha : rws.find? (fun r => r.1 == a) = some ra)
    (hb : rws.find? (fun r => r.1 == b) = some rb) :
    (DF.mk cn rws).locRows [a, b] = some [ra, rb] := by
  unfold DF.locRows
  simp only [List.mapM, List.mapM.loop, ha, hb]
  rfl

theorem label_eq_getD (r : DF) {labels : List String} (hr : r.rows.map Prod.fst = labels)
    {i : Nat} (hi : i < labels.length) :
    (r.rows.getD i ("", [])).1 = labels.getD i "" := by
  subst hr
  have hi' : i < r.rows.length := by simpa using hi
  rw [List.getD_eq_getElem _ _ hi', List.getD_eq_getElem _ _ (by simpa using hi)]
  simp

theorem cellAt_eq_getD (r : DF) {labels : List String} (hr : r.rows.map Prod.fst = labels)
    (hnd : labels.Nodup) {i : Nat} (hi : i < labels.length) (j : Nat) :
    r.cellAt (labels.getD i "") j = (r.rows.getD i ("", [])).2.getD j 0 := by
  unfold DF.cellAt
  rw [find_row_of_map_fst hr hnd hi]
  rfl

theorem filters_eq_kept (labels : List String) :
    ((labels.filter (fun l => !(l == "micro avg"))).filter
        (fun l => !(l == "accuracy"))).filter
        (fun l => !(["macro avg", "weighted avg"].contains l))
      = keptLabels labels := by
  unfold keptLabels
  rw [List.filter_filter, List.filter_filter]
  apply List.filter_congr
  intro l _
  by_cases h1 : l = "micro avg" <;> by_cases h2 : l = "accuracy" <;>
    by_cases h3 : l = "macro avg" <;> by_cases h4 : l = "weighted avg" <;>
    simp [h1, h2, h3, h4, specialLabels]

theorem roundCast_final (rows : List (String × List ℚ))
    (h4 : ∀ p ∈ rows, ∃ a b c d, p.2 = [a, b, c, d]) :
    DF.astypeIntCols
        (DF.roundCols (DF.mk stdCols rows) ["precision", "recall", "f1-score"]) "support"
      = DFV.mk stdCols (rows.map (fun p => (p.1, roundCastRow p.2))) := by
  unfold DF.roundCols DF.astypeIntCols
  simp only [List.map_map]
  congr 1
  apply List.map_congr_left
  intro p hp
  obtain ⟨a, b, c, d, hpe⟩ := h4 p hp
  cases p with
  | mk l vs =>
    simp only at hpe
    subst hpe
    simp [stdCols, roundCastRow]

/-- Characterisation of a successful run: under the documented input contract,
with at least two reports and both summary rows present, `average_reports`
succeeds, and the final table consists of the aggregated class rows in
descending-support order (with the model's tie order, see `DF.sortValsDesc`)
followed by the two summary rows, all metric cells rounded and the summed
support cast to integer. -/
theorem average_reports_spec (reports : List DF) (labels : List String)
    (hk : 2 ≤ reports.length) (hv : ValidReports reports labels)
    (hm : "macro avg" ∈ labels) (hw : "weighted avg" ∈ labels) :
    average_reports reports = Except.ok (DFV.mk stdCols
      ((((keptLabels labels).map (fun l => (l, aggRow reports l))).mergeSort supLE).map
          (fun p => (p.1, roundCastRow p.2))
        ++ [("macro avg", roundCastRow (aggRow reports "macro avg")),
            ("weighted avg", roundCastRow (aggRow reports "weighted avg"))])) := by
  obtain ⟨hcols, hlabs, hlen, hnd⟩ := hv
  have hne : reports ≠ [] := by
    intro h
    rw [h] at hk
    exact absurd hk (by decide)
  obtain ⟨r0, rs, rfl⟩ := List.exists_cons_of_ne_nil hne
  have hn : r0.rows.length = labels.length := by
    have h := hlabs r0 (by simp)
    calc r0.rows.length = (r0.rows.map Prod.fst).length := (List.length_map _ _).symm
      _ = labels.length := by rw [h]
  have hcnt : ∀ p : String → Bool,
      (((r0 :: rs).map DF.colNames).flatten).countP p
        = (r0 :: rs).length * stdCols.countP p :=
    colNames_flatten_count _ hcols
  have hsup2 : 2 ≤ (((r0 :: rs).map DF.colNames).flatten).countP
      (fun n => n == "support") := by
    rw [hcnt, show stdCols.countP (fun n => n == "support") = 1 from by decide, Nat.mul_one]
    exact hk
  have hprec2 : 2 ≤ (((r0 :: rs).map DF.colNames).flatten).countP
      (fun n => n == "precision") := by
    rw [hcnt, show stdCols.countP (fun n => n == "precision") = 1 from by decide, Nat.mul_one]
    exact hk
  have hrec2 : 2 ≤ (((r0 :: rs).map DF.colNames).flatten).countP
      (fun n => n == "recall") := by
    rw [hcnt, show stdCols.countP (fun n => n == "recall") = 1 from by decide, Nat.mul_one]
    exact hk
  have hf12 : 2 ≤ (((r0 :: rs).map DF.colNames).flatten).countP
      (fun n => n == "f1-score") := by
    rw [hcnt, show stdCols.countP (fun n => n == "f1-score") = 1 from by decide, Nat.mul_one]
    exact hk
  have hC : concatAxis1 (r0 :: rs) = Except.ok (DF.mk
      (((r0 :: rs).map DF.colNames).flatten)
      ((List.range r0.rows.length).map (fun i =>
        ((r0.rows.getD i ("", [])).1,
         ((r0 :: rs).map (fun r => (r.rows.getD i ("", [])).2)).flatten)))) := rfl
  have hCN4 : ((((r0 :: rs).map DF.colNames).flatten).take 4) = stdCols := by
    rw [List.map_congr_left hcols, List.map_const']
    rw [List.length_cons, List.replicate_succ, List.flatten_cons]
    exact List.take_left' rfl
  have hRows :
      ((((((List.range r0.rows.length).map (fun i =>
            ((r0.rows.getD i ("", [])).1,
             ((r0 :: rs).map (fun r => (r.rows.getD i ("", [])).2)).flatten))).map
          (fun r => (r.1, rowStep (((r0 :: rs).map DF.colNames).flatten) "support" sumQ r.2))).map
          (fun r => (r.1, rowStep (((r0 :: rs).map DF.colNames).flatten) "precision" meanQ r.2))).map
          (fun r => (r.1, rowStep (((r0 :: rs).map DF.colNames).flatten) "recall" meanQ r.2))).map
          (fun r => (r.1, rowStep (((r0 :: rs).map DF.colNames).flatten) "f1-score" meanQ r.2))).map
          (fun r => (r.1, r.2.take 4))
      = labels.map (fun l => (l, aggRow (r0 :: rs) l)) := by
    rw [List.map_map, List.map_map, List.map_map, List.map_map, List.map_map]
    apply List.ext_getElem
    · simp [hn]
    · intro i hL hR
      have hi : i < labels.length := by simpa [hn] using hL
      simp only [List.getElem_map, List.getElem_range, Function.comp_apply]
      rw [← List.getD_eq_getElem labels "" hi]
      have hbl : ((r0 :: rs).map (fun r => (r.rows.getD i ("", [])).2))
          = ((r0 :: rs).map (fun r => [(r.rows.getD i ("", [])).2.getD 0 0,
              (r.rows.getD i ("", [])).2.getD 1 0,
              (r.rows.getD i ("", [])).2.getD 2 0,
              (r.rows.getD i ("", [])).2.getD 3 0])) := by
        apply List.map_congr_left
        intro r hr
        have hlr : r.rows.length = labels.length := by
          have h := hlabs r hr
          calc r.rows.length = (r.rows.map Prod.fst).length := (List.length_map _ _).symm
            _ = labels.length := by rw [h]
        have hmem : r.rows.getD i ("", []) ∈ r.rows := by
          rw [List.getD_eq_getElem _ _ (by omega)]
          exact List.getElem_mem _
        exact length_four_eq (hlen r hr _ hmem)
      rw [hbl]
      have hcnstd : (((r0 :: rs).map DF.colNames).flatten)
          = (((r0 :: rs).map (fun _ => stdCols)).flatten) := by
        rw [List.map_congr_left hcols]
      rw [hcnstd]
      rw [row_agg (r0 :: rs) _ _ _ _ (by simp)]
      simp only [Prod.mk.injEq]
      refine ⟨label_eq_getD r0 (hlabs r0 (by simp)) hi, ?_⟩
      have hcell : ∀ j : Nat, ((r0 :: rs).map (fun r => r.cellAt (labels.getD i "") j))
          = ((r0 :: rs).map (fun r => (r.rows.getD i ("", [])).2.getD j 0)) := by
        intro j
        apply List.map_congr_left
        intro r hr
        exact cellAt_eq_getD r (hlabs r hr) hnd hi j
      unfold aggRow meanMetric sumSupport
      rw [hcell 0, hcell 1, hcell 2, hcell 3]
  unfold average_reports
  rw [hC]
  simp only [except_bind_ok]
  rw [aggSet_ok_mk _ _ _ _ hsup2]
  simp only [except_bind_ok]
  rw [aggSet_ok_mk _ _ _ _ hprec2]
  simp only [except_bind_ok]
  rw [aggSet_ok_mk _ _ _ _ hrec2]
  simp only [except_bind_ok]
  rw [aggSet_ok_mk _ _ _ _ hf12]
  simp only [except_bind_ok]
  rw [takeCols_mk, hCN4, hRows]
  simp only [dropRowIf_mk]
  rw [filter_map_mk _ _ _ (fun l => !(l == "micro avg")) (fun l => rfl)]
  rw [filter_map_mk _ _ _ (fun l => !(l == "accuracy")) (fun l => rfl)]
  have hmac : "macro avg" ∈ (labels.filter (fun l => !(l == "micro avg"))).filter
      (fun l => !(l == "accuracy")) :=
    List.mem_filter.mpr ⟨List.mem_filter.mpr ⟨hm, by decide⟩, by decide⟩
  have hwei : "weighted avg" ∈ (labels.filter (fun l => !(l == "micro avg"))).filter
      (fun l => !(l == "accuracy")) :=
    List.mem_filter.mpr ⟨List.mem_filter.mpr ⟨hw, by decide⟩, by decide⟩
  have hpres : ∀ l ∈ ["macro avg", "weighted avg"],
      (DF.mk stdCols (((labels.filter (fun l => !(l == "micro avg"))).filter
        (fun l => !(l == "accuracy"))).map
          (fun l => (l, aggRow (r0 :: rs) l)))).hasRow l := by
    intro l hl
    rw [hasRow_map_mk]
    rcases List.mem_cons.mp hl with h | h
    · subst h
      exact List.any_eq_true.mpr ⟨"macro avg", hmac, by simp⟩
    · rcases List.mem_cons.mp h with h' | h'
      · subst h'
        exact List.any_eq_true.mpr ⟨"weighted avg", hwei, by simp⟩
      · cases h'
  rw [dropRowsStrict_some_mk _ _ _ hpres]
  simp only [Option.elim]
  rw [filter_map_mk _ _ _ (fun l => !(["macro avg", "weighted avg"].contains l)) (fun l => rfl)]
  rw [filters_eq_kept]
  rw [sortValsDesc_std_mk]
  simp only [Option.elim]
  have hfm := find?_map_mk (fun l => aggRow (r0 :: rs) l) hmac
  have hfw := find?_map_mk (fun l => aggRow (r0 :: rs) l) hwei
  rw [locRows_pair_mk _ _ _ _ _ _ hfm hfw]
  simp only [Option.elim]
  have h4all : ∀ p ∈ (((keptLabels labels).map
        (fun l => (l, aggRow (r0 :: rs) l))).mergeSort supLE)
      ++ [("macro avg", aggRow (r0 :: rs) "macro avg"),
          ("weighted avg", aggRow (r0 :: rs) "weighted avg")],
      ∃ a b c d, p.2 = [a, b, c, d] := by
    intro p hp
    rcases List.mem_append.mp hp with h | h
    · rcases List.mem_map.mp (List.mem_mergeSort.mp h) with ⟨l, _, rfl⟩
      exact ⟨_, _, _, _, rfl⟩
    · rcases List.mem_cons.mp h with h' | h'
      · subst h'
        exact ⟨_, _, _, _, rfl⟩
      · rcases List.mem_cons.mp h' with h'' | h''
        · subst h''
          exact ⟨_, _, _, _, rfl⟩
        · cases h''
  rw [show stdCols.take 3 = ["precision", "recall", "f1-score"] from rfl]
  rw [roundCast_final _ h4all]
  rw [List.map_append]
  rfl

theorem except_bind_error {α β : Type} (e : Err) (f : α → Except Err β) :
    ((Except.error e : Except Err α) >>= f) = Except.error e := rfl

/-- A one-report list reaches `Series.sum(axis=1)` with a unique `support`
column and raises: the model returns the `axisError` failure. -/
theorem average_reports_single (r : DF) (hc : r.colNames = stdCols) :
    average_reports [r] = Except.error Err.axisError := by
  have hC : concatAxis1 [r] = Except.ok (DF.mk (([r].map DF.colNames).flatten)
      ((List.range r.rows.length).map (fun i =>
        ((r.rows.getD i ("", [])).1,
         ([r].map (fun rr => (rr.rows.getD i ("", [])).2)).flatten)))) := rfl
  have hcnt : (([r].map DF.colNames).flatten).countP (fun n => n == "support") = 1 := by
    rw [show ([r].map DF.colNames).flatten = r.colNames ++ [] from rfl, hc]
    decide
  unfold average_reports
  rw [hC]
  simp only [except_bind_ok]
  unfold DF.aggSet DF.colCount
  rw [if_neg (by rw [hcnt]; omega), if_pos hcnt]
  rfl

theorem average_reports_nil : average_reports [] = Except.error Err.emptyInput := rfl

/-- Success forces at least two reports: with one report the `support`
aggregation raises, with zero reports the concatenation raises. -/
theorem two_le_of_ok {reports : List DF} {t : DFV}
    (hcols : ∀ r ∈ reports, r.colNames = stdCols)
    (h : average_reports reports = Except.ok t) : 2 ≤ reports.length := by
  match reports with
  | [] =>
    rw [average_reports_nil] at h
    cases h
  | [r] =>
    rw [average_reports_single r (hcols r (by simp))] at h
    cases h
  | a :: b :: l => simp

theorem supLE_trans : ∀ a b c : String × List ℚ, supLE a b → supLE b c → supLE a c := by
  intro a b c hab hbc
  simp only [supLE, decide_eq_true_eq] at *
  exact le_trans hbc hab

theorem supLE_total : ∀ a b : String × List ℚ, supLE a b || supLE b a := by
  intro a b
  unfold supLE
  rw [Bool.or_eq_true]
  rcases le_total (b.2.getD 3 0) (a.2.getD 3 0) with h | h
  · exact Or.inl (decide_eq_true h)
  · exact Or.inr (decide_eq_true h)

theorem mem_keptLabels {labels : List String} {L : String} (h1 : L ∈ labels)
    (h2 : L ∉ specialLabels) : L ∈ keptLabels labels := by
  unfold keptLabels
  refine List.mem_filter.mpr ⟨h1, ?_⟩
  simpa using h2

theorem mem_labels_of_kept {labels : List String} {L : String}
    (h : L ∈ keptLabels labels) : L ∈ labels ∧ L ∉ specialLabels := by
  unfold keptLabels at h
  obtain ⟨h1, h2⟩ := List.mem_filter.mp h
  refine ⟨h1, ?_⟩
  simpa using h2

theorem snd_unique {β : Type} {l : List (String × β)} (h : (l.map Prod.fst).Nodup)
    {L : String} {a b : β} (ha : (L, a) ∈ l) (hb : (L, b) ∈ l) : a = b := by
  induction l with
  | nil => cases ha
  | cons p tl ih =>
    rw [List.map_cons, List.nodup_cons] at h
    rcases List.mem_cons.mp ha with h1 | h1 <;> rcases List.mem_cons.mp hb with h2 | h2
    · exact congrArg Prod.snd (h1.trans h2.symm)
    · exfalso
      have hL : L ∈ tl.map Prod.fst := by
        simpa using List.mem_map_of_mem Prod.fst h2
      have hp1 : p.1 = L := (congrArg Prod.fst h1).symm
      exact h.1 (by rw [hp1]; exact hL)
    · exfalso
      have hL : L ∈ tl.map Prod.fst := by
        simpa using List.mem_map_of_mem Prod.fst h1
      have hp1 : p.1 = L := (congrArg Prod.fst h2).symm
      exact h.1 (by rw [hp1]; exact hL)
    · exact ih h.2 h1 h2

theorem sorted_fst_perm (reports : List DF) (labels : List String) :
    (((((keptLabels labels).map (fun l => (l, aggRow reports l))).mergeSort supLE).map
        (fun p : String × List ℚ => (p.1, roundCastRow p.2))).map Prod.fst).Perm
      (keptLabels labels) := by
  rw [List.map_map]
  have h := (List.mergeSort_perm
    ((keptLabels labels).map (fun l => (l, aggRow reports l))) supLE).map
      (Prod.fst ∘ fun p : String × List ℚ => (p.1, roundCastRow p.2))
  rw [List.map_map] at h
  have hid : ((Prod.fst ∘ fun p : String × List ℚ => (p.1, roundCastRow p.2))
      ∘ fun l : String => (l, aggRow reports l)) = id := rfl
  rw [hid, List.map_id] at h
  exact h

theorem final_fst_nodup (reports : List DF) (labels : List String) (hnd : labels.Nodup) :
    ((((((keptLabels labels).map (fun l => (l, aggRow reports l))).mergeSort supLE).map
          (fun p : String × List ℚ => (p.1, roundCastRow p.2)))
        ++ [("macro avg", roundCastRow (aggRow reports "macro avg")),
            ("weighted avg", roundCastRow (aggRow reports "weighted avg"))]).map
        Prod.fst).Nodup := by
  rw [List.map_append, List.nodup_append]
  have hperm := sorted_fst_perm reports labels
  have hkn : (keptLabels labels).Nodup := List.Nodup.filter _ hnd
  refine ⟨hperm.nodup_iff.mpr hkn, by simp, ?_⟩
  intro x hx hx2
  have hxk : x ∈ keptLabels labels := hperm.mem_iff.mp hx
  have hns := (mem_labels_of_kept hxk).2
  apply hns
  simp only [List.map_cons, List.map_nil] at hx2
  rcases List.mem_cons.mp hx2 with h | h
  · rw [h]
    decide
  · rcases List.mem_cons.mp h with h' | h'
    · rw [h']
      decide
    · cases h'

/-- The fully processed row of a retained label: it appears in the final
table, uniquely, carrying the rounded means and the cast summed support. -/
theorem out_row_spec (reports : List DF) (labels : List String)
    (hk : 2 ≤ reports.length) (hv : ValidReports reports labels)
    (hm : "macro avg" ∈ labels) (hw : "weighted avg" ∈ labels)
    (L : String) (hL : L ∈ labels) (hnm : L ≠ "micro avg") (hna : L ≠ "accuracy") :
    ∃ t, average_reports reports = Except.ok t ∧
      (L, roundCastRow (aggRow reports L)) ∈ t.rows ∧
      ∀ vs, (L, vs) ∈ t.rows → vs = roundCastRow (aggRow reports L) := by
  refine ⟨_, average_reports_spec reports labels hk hv hm hw, ?_, ?_⟩
  · by_cases hmac : L = "macro avg"
    · subst hmac
      apply List.mem_append_right
      exact List.mem_cons_self _ _
    · by_cases hwei : L = "weighted avg"
      · subst hwei
        apply List.mem_append_right
        exact List.mem_cons_of_mem _ (List.mem_cons_self _ _)
      · apply List.mem_append_left
        have hkm : L ∈ keptLabels labels := by
          apply mem_keptLabels hL
          intro hc
          simp only [specialLabels, List.mem_cons, List.not_mem_nil, or_false] at hc
          rcases hc with h | h | h | h
          · exact hnm h
          · exact hna h
          · exact hmac h
          · exact hwei h
        have h1 : (L, aggRow reports L)
            ∈ (keptLabels labels).map (fun l => (l, aggRow reports l)) :=
          List.mem_map_of_mem _ hkm
        have h2 : (L, aggRow reports L)
            ∈ ((keptLabels labels).map (fun l => (l, aggRow reports l))).mergeSort supLE :=
          List.mem_mergeSort.mpr h1
        exact List.mem_map_of_mem (fun p : String × List ℚ => (p.1, roundCastRow p.2)) h2
  · intro vs hvs
    have hmem : (L, roundCastRow (aggRow reports L)) ∈
        ((((keptLabels labels).map (fun l => (l, aggRow reports l))).mergeSort supLE).map
            (fun p : String × List ℚ => (p.1, roundCastRow p.2)))
          ++ [("macro avg", roundCastRow (aggRow reports "macro avg")),
              ("weighted avg", roundCastRow (aggRow reports "weighted avg"))] := by
      by_cases hmac : L = "macro avg"
      · subst hmac
        apply List.mem_append_right
        exact List.mem_cons_self _ _
      · by_cases hwei : L = "weighted avg"
        · subst hwei
          apply List.mem_append_right
          exact List.mem_cons_of_mem _ (List.mem_cons_self _ _)
        · apply List.mem_append_left
          have hkm : L ∈ keptLabels labels := by
            apply mem_keptLabels hL
            intro hc
            simp only [specialLabels, List.mem_cons, List.not_mem_nil, or_false] at hc
            rcases hc with h | h | h | h
            · exact hnm h
            · exact hna h
            · exact hmac h
            · exact hwei h
          have h1 : (L, aggRow reports L)
              ∈ (keptLabels labels).map (fun l => (l, aggRow reports l)) :=
            List.mem_map_of_mem _ hkm
          have h2 : (L, aggRow reports L)
              ∈ ((keptLabels labels).map (fun l => (l, aggRow reports l))).mergeSort supLE :=
            List.mem_mergeSort.mpr h1
          exact List.mem_map_of_mem (fun p : String × List ℚ => (p.1, roundCastRow p.2)) h2
    exact snd_unique (final_fst_nodup reports labels hv.2.2.2) hvs hmem

theorem map_fst_pairmap {β γ : Type} (rows : List (String × β)) (g : String × β → γ) :
    ((rows.map (fun r => (r.1, g r))).map Prod.fst) = rows.map Prod.fst := by
  rw [List.map_map]
  rfl

theorem dropRowsStrict_inv {df : DF} {ls : List String} {dropped : DF}
    (h : df.dropRowsStrict ls = some dropped) :
    dropped.rows = df.rows.filter (fun r => !(ls.contains r.1)) := by
  unfold DF.dropRowsStrict at h
  by_cases hc : ls.all (fun l => df.hasRow l)
  · rw [if_pos hc] at h
    rw [← Option.some.inj h]
  · rw [if_neg hc] at h
    cases h

theorem sortValsDesc_inv {df : DF} {name : String} {sorted : DF}
    (h : df.sortValsDesc name = some sorted) :
    ∀ p ∈ sorted.rows, p ∈ df.rows := by
  unfold DF.sortValsDesc at h
  cases hcp : df.colPos name with
  | none =>
    rw [hcp] at h
    cases h
  | some j =>
    rw [hcp] at h
    simp only [Option.map_some'] at h
    rw [← Option.some.inj h]
    intro p hp
    exact List.mem_mergeSort.mp hp

theorem locRows_pair_inv {df : DF} {a b : String} {tl : List (String × List ℚ)}
    (h : df.locRows [a, b] = some tl) :
    ∃ x y, tl = [x, y] ∧ x.1 = a ∧ y.1 = b := by
  unfold DF.locRows at h
  cases fa : df.rows.find? (fun r => r.1 == a) with
  | none => simp [List.mapM, List.mapM.loop, fa] at h
  | some x =>
    cases fb : df.rows.find? (fun r => r.1 == b) with
    | none => simp [List.mapM, List.mapM.loop, fa, fb] at h
    | some y =>
      simp only [List.mapM, List.mapM.loop, fa, fb, Option.bind_some] at h
      refine ⟨x, y, ?_, ?_, ?_⟩
      · simpa using h.symm
      · simpa using List.find?_some fa
      · simpa using List.find?_some fb

theorem hasRow_false_of_not_mem (df : DF) (l : String)
    (h : l ∉ df.rows.map Prod.fst) : df.hasRow l = false := by
  unfold DF.hasRow
  rw [List.any_eq_false]
  intro r hr
  simp only [Bool.not_eq_true, beq_eq_false_iff_ne, ne_eq]
  intro hc
  exact h (hc ▸ List.mem_map_of_mem Prod.fst hr)

theorem dropRowsStrict_none (df : DF) (ls : List String) (l : String) (hl : l ∈ ls)
    (h : df.hasRow l = false) : df.dropRowsStrict ls = none := by
  unfold DF.dropRowsStrict
  rw [if_neg]
  intro hall
  rw [List.all_eq_true] at hall
  rw [hall l hl] at h
  cases h

theorem truncInt_intCast (z : ℤ) : truncInt ((z : ℚ)) = z := by
  unfold truncInt
  split
  · exact Int.floor_intCast z
  · exact Int.ceil_intCast z

theorem sum_den_one (reports : List DF) (L : String)
    (hint : ∀ r ∈ reports, (r.cellAt L 3).den = 1) :
    ∃ z : ℤ, sumQ (reports.map (fun r => r.cellAt L 3)) = (z : ℚ) := by
  induction reports with
  | nil => exact ⟨0, by simp [sumQ]⟩
  | cons r tl ih =>
    obtain ⟨z', hz'⟩ := ih (fun x hx => hint x (List.mem_cons_of_mem _ hx))
    have h1 : ((r.cellAt L 3).num : ℚ) = r.cellAt L 3 :=
      (Rat.den_eq_one_iff _).mp (hint r (List.mem_cons_self _ _))
    refine ⟨(r.cellAt L 3).num + z', ?_⟩
    simp only [sumQ, List.map_cons, List.sum_cons] at *
    push_cast
    rw [h1, hz']

deriving instance DecidableEq for Except

unseal List.merge List.mergeSort Rat.add Rat.mul Rat.inv Rat.sub Nat.gcd

/-! ### Concrete report fixtures used by witnesses and counterexamples -/

/-- A first cross-validation fold report (with `micro avg` and `accuracy`
rows present). -/
def w1 : DF :=
  DF.mk stdCols
    [("A", [1/2, 1/2, 1/2, 3]), ("B", [1/4, 1/2, 3/4, 1]), ("C", [1, 0, 1/2, 1]),
     ("micro avg", [1/3, 1/3, 1/3, 5]), ("macro avg", [7/12, 1/3, 7/12, 5]),
     ("weighted avg", [5/8, 3/8, 9/16, 5]), ("accuracy", [2/5, 2/5, 2/5, 5])]

/-- A second cross-validation fold report over the same labels. -/
def w2 : DF :=
  DF.mk stdCols
    [("A", [1/4, 1/2, 1/4, 4]), ("B", [3/4, 1/2, 1/4, 1]), ("C", [0, 1, 1/2, 1]),
     ("micro avg", [1/3, 1/3, 1/3, 6]), ("macro avg", [1/3, 2/3, 1/3, 6]),
     ("weighted avg", [1/4, 1/2, 1/4, 6]), ("accuracy", [3/5, 3/5, 3/5, 6])]

/-- The shared label list of `w1` and `w2`. -/
def wLabels : List String :=
  ["A", "B", "C", "micro avg", "macro avg", "weighted avg", "accuracy"]

/-- The consolidated table `average_reports [w1, w2]` produces. -/
def wOut : DFV :=
  DFV.mk stdCols
    [("A", [Val.f (19/50), Val.f (1/2), Val.f (19/50), Val.i 7]),
     ("B", [Val.f (1/2), Val.f (1/2), Val.f (1/2), Val.i 2]),
     ("C", [Val.f (1/2), Val.f (1/2), Val.f (1/2), Val.i 2]),
     ("macro avg", [Val.f (23/50), Val.f (1/2), Val.f (23/50), Val.i 11]),
     ("weighted avg", [Val.f (11/25), Val.f (11/25), Val.f (41/100), Val.i 11])]

/-- A single, fully well-formed report (used against claims that quantify
over every non-empty list). -/
def xC1 : DF :=
  DF.mk stdCols
    [("A", [1/2, 1/2, 1/2, 10]), ("macro avg", [1/2, 1/2, 1/2, 10]),
     ("weighted avg", [1/2, 1/2, 1/2, 10])]

/-- Another single well-formed report. -/
def xC2 : DF :=
  DF.mk stdCols
    [("B", [3/4, 1/4, 1/2, 6]), ("macro avg", [3/4, 1/4, 1/2, 6]),
     ("weighted avg", [3/4, 1/4, 1/2, 6])]

/-- A single report with no `macro avg` row. -/
def xC7 : DF :=
  DF.mk stdCols [("A", [1/2, 1/2, 1/2, 10]), ("weighted avg", [1/2, 1/2, 1/2, 10])]

/-- Two reports sharing the labels `A`, `macro avg` but lacking
`weighted avg`. -/
def y7a : DF :=
  DF.mk stdCols [("A", [1/2, 1/2, 1/2, 10]), ("macro avg", [1/2, 1/2, 1/2, 10])]

/-- Second report without `weighted avg`. -/
def y7b : DF :=
  DF.mk stdCols [("A", [1/4, 1/4, 1/4, 20]), ("macro avg", [1/4, 1/4, 1/4, 20])]

/-- A report whose columns carry the four required names out of order:
`support` sits third and holds fractional (metric-like) values, `f1-score`
sits last. -/
def r10a : DF :=
  DF.mk ["precision", "recall", "support", "f1-score"]
    [("A", [1/2, 1/2, 9/10, 111/1000]),
     ("macro avg", [1/2, 1/2, 9/10, 111/1000]),
     ("weighted avg", [1/2, 1/2, 9/10, 111/1000])]

/-- A second report with the same permuted column order. -/
def r10b : DF :=
  DF.mk ["precision", "recall", "support", "f1-score"]
    [("A", [1/2, 1/2, 4/5, 111/500]),
     ("macro avg", [1/2, 1/2, 4/5, 111/500]),
     ("weighted avg", [1/2, 1/2, 4/5, 111/500])]

/-- The per-row association the permuted inputs produce in dict mode. -/
def kvs10 : List (String × Val) :=
  [("precision", Val.f (1/2)), ("recall", Val.f (1/2)), ("support", Val.i 1),
   ("f1-score", Val.f (333/2000))]

/-- The dict-mode output of the permuted inputs. -/
def d10 : List (String × List (String × Val)) :=
  [("A", kvs10), ("macro avg", kvs10), ("weighted avg", kvs10)]

/-! ### Claim theorems -/

/-- C8: when the input sequence of reports is empty, the operation signals
the empty-input failure (`pd.concat` raises before anything else happens),
in both output modes. -/
theorem C8_empty_input :
    average_reports [] = Except.error Err.emptyInput ∧
    average_reports_dict [] = Except.error Err.emptyInput :=
  ⟨rfl, rfl⟩

/-- C10: the retained columns are selected positionally and rounding is
applied to the first three column names, while the integer cast follows the
name `support`.  For the concrete pair `r10a`, `r10b` — whose columns carry
the four required names in a non-standard order — the output `f1-score`
value `0.1665` is not rounded to two decimals, and the fractional
metric-like values summed under the name `support` (`0.9 + 0.8 = 1.7`) are
truncated to the integer `1`. -/
theorem C10_positional_columns :
    r10a.colNames.Perm stdCols ∧ ¬(r10a.colNames = stdCols) ∧
    r10b.colNames = r10a.colNames ∧
    average_reports_dict [r10a, r10b] = Except.ok d10 ∧
    ("A", kvs10) ∈ d10 ∧
    ("f1-score", Val.f (333/2000)) ∈ kvs10 ∧ ¬(round2 (333/2000) = (333/2000 : ℚ)) ∧
    ("support", Val.i 1) ∈ kvs10 ∧
    sumQ [r10a.cellAt "A" 2, r10b.cellAt "A" 2] = 17/10 ∧ truncInt (17/10) = 1 ∧
    ¬(((17 : ℚ)/10).den = 1) := by
  refine ⟨by decide, by decide, rfl, by decide, by decide, by decide, by decide, by decide,
    by decide, by decide, by decide⟩

/-- C1 (amended: at least two reports): for every list of two or more
reports sharing the same row labels and the documented columns, and every
label `L` present in the reports and retained in the output, the output's
support value for `L` is an integer equal to the exact sum of the support
values for `L` across all input reports. -/
theorem C1_support_summation (reports : List DF) (labels : List String)
    (hk : 2 ≤ reports.length) (hv : ValidReports reports labels)
    (hm : "macro avg" ∈ labels) (hw : "weighted avg" ∈ labels)
    (L : String) (hL : L ∈ labels) (hnm : L ≠ "micro avg") (hna : L ≠ "accuracy")
    (hint : ∀ r ∈ reports, (r.cellAt L 3).den = 1) :
    ∃ t vs, average_reports reports = Except.ok t ∧ (L, vs) ∈ t.rows ∧
      (∀ vs', (L, vs') ∈ t.rows → vs' = vs) ∧
      ∃ z : ℤ, vs.getD 3 (Val.f 0) = Val.i z ∧
        (z : ℚ) = sumQ (reports.map (fun r => r.cellAt L 3)) := by
  obtain ⟨t, hok, hmem, huniq⟩ := out_row_spec reports labels hk hv hm hw L hL hnm hna
  obtain ⟨z, hz⟩ := sum_den_one reports L hint
  refine ⟨t, _, hok, hmem, huniq, z, ?_, hz.symm⟩
  have h1 : (roundCastRow (aggRow reports L)).getD 3 (Val.f 0)
      = Val.i (truncInt (sumSupport reports L)) := rfl
  rw [h1]
  have h2 : sumSupport reports L = (z : ℚ) := hz
  rw [h2, truncInt_intCast]

/-- C1 counterexample: a list of one fully well-formed report — non-empty,
standard columns, shared labels, label `A` present with integer support —
produces no output at all: the run fails with the `Series.sum(axis=1)`
error, so no output support value exists, against the claim's quantification
over every non-empty list. -/
theorem C1_counterexample :
    ValidReports [xC1] ["A", "macro avg", "weighted avg"] ∧
    "A" ∈ ["A", "macro avg", "weighted avg"] ∧ (xC1.cellAt "A" 3).den = 1 ∧
    average_reports [xC1] = Except.error Err.axisError := by
  refine ⟨by decide, by decide, by decide, by decide⟩

/-- C1 witness: the amended claim applied to the two concrete fold reports
`w1`, `w2` at label `A`: support 3 + 4 = 7. -/
theorem C1_witness :
    ∃ t vs, average_reports [w1, w2] = Except.ok t ∧ ("A", vs) ∈ t.rows ∧
      (∀ vs', ("A", vs') ∈ t.rows → vs' = vs) ∧
      ∃ z : ℤ, vs.getD 3 (Val.f 0) = Val.i z ∧
        (z : ℚ) = sumQ ([w1, w2].map (fun r => r.cellAt "A" 3)) :=
  C1_support_summation [w1, w2] wLabels (by decide) (by decide) (by decide) (by decide)
    "A" (by decide) (by decide) (by decide) (by decide)

/-- C2 (amended: at least two reports): for every list of two or more
reports sharing the same row labels and the documented columns, and every
label `L` retained in the output, the output's precision, recall and
f1-score values for `L` (column positions 0, 1, 2 of the documented layout)
equal the arithmetic mean of that metric for `L` across the inputs, rounded
to two decimal places. -/
theorem C2_metric_averaging (reports : List DF) (labels : List String)
    (hk : 2 ≤ reports.length) (hv : ValidReports reports labels)
    (hm : "macro avg" ∈ labels) (hw : "weighted avg" ∈ labels)
    (L : String) (hL : L ∈ labels) (hnm : L ≠ "micro avg") (hna : L ≠ "accuracy") :
    ∃ t vs, average_reports reports = Except.ok t ∧ (L, vs) ∈ t.rows ∧
      (∀ vs', (L, vs') ∈ t.rows → vs' = vs) ∧
      vs.getD 0 (Val.f 0) = Val.f (round2 (meanQ (reports.map (fun r => r.cellAt L 0)))) ∧
      vs.getD 1 (Val.f 0) = Val.f (round2 (meanQ (reports.map (fun r => r.cellAt L 1)))) ∧
      vs.getD 2 (Val.f 0) = Val.f (round2 (meanQ (reports.map (fun r => r.cellAt L 2)))) := by
  obtain ⟨t, hok, hmem, huniq⟩ := out_row_spec reports labels hk hv hm hw L hL hnm hna
  exact ⟨t, _, hok, hmem, huniq, rfl, rfl, rfl⟩

/-- C2 counterexample: a list of one fully well-formed report produces no
output at all — the run fails with the `Series.sum(axis=1)` error — so no
mean-and-rounded metric values exist, against the claim's quantification
over every non-empty list. -/
theorem C2_counterexample :
    ValidReports [xC2] ["B", "macro avg", "weighted avg"] ∧
    "B" ∈ ["B", "macro avg", "weighted avg"] ∧
    average_reports [xC2] = Except.error Err.axisError := by
  refine ⟨by decide, by decide, by decide⟩

/-- C2 witness: the amended claim applied to `w1`, `w2` at label `A`:
precision mean (1/2 + 1/4) / 2 = 0.375 rounds to 0.38, and so on. -/
theorem C2_witness :
    ∃ t vs, average_reports [w1, w2] = Except.ok t ∧ ("A", vs) ∈ t.rows ∧
      (∀ vs', ("A", vs') ∈ t.rows → vs' = vs) ∧
      vs.getD 0 (Val.f 0) = Val.f (round2 (meanQ ([w1, w2].map (fun r => r.cellAt "A" 0)))) ∧
      vs.getD 1 (Val.f 0) = Val.f (round2 (meanQ ([w1, w2].map (fun r => r.cellAt "A" 1)))) ∧
      vs.getD 2 (Val.f 0) = Val.f (round2 (meanQ ([w1, w2].map (fun r => r.cellAt "A" 2)))) :=
  C2_metric_averaging [w1, w2] wLabels (by decide) (by decide) (by decide) (by decide)
    "A" (by decide) (by decide) (by decide)

/-- C3: whenever a valid input (documented columns, shared distinct labels,
both summary rows present) produces an output, the output's rows are the
class rows — exactly the non-special labels, ordered by non-increasing
summed support — followed by the `macro avg` row and then the
`weighted avg` row as the final two rows. -/
theorem C3_row_ordering (reports : List DF) (labels : List String) (t : DFV)
    (hv : ValidReports reports labels)
    (hm : "macro avg" ∈ labels) (hw : "weighted avg" ∈ labels)
    (hok : average_reports reports = Except.ok t) :
    ∃ cls, t.rows = cls
        ++ [("macro avg", roundCastRow (aggRow reports "macro avg")),
            ("weighted avg", roundCastRow (aggRow reports "weighted avg"))] ∧
      (cls.map Prod.fst).Perm (keptLabels labels) ∧
      cls.Pairwise (fun a b => sumSupport reports b.1 ≤ sumSupport reports a.1) := by
  have hk := two_le_of_ok hv.1 hok
  have hspec := average_reports_spec reports labels hk hv hm hw
  rw [hok] at hspec
  cases Except.ok.inj hspec
  refine ⟨_, rfl, sorted_fst_perm reports labels, ?_⟩
  have hs := List.sorted_mergeSort supLE_trans supLE_total
    ((keptLabels labels).map (fun l => (l, aggRow reports l)))
  rw [List.pairwise_map]
  refine List.Pairwise.imp_of_mem ?_ hs
  intro a b ha hb hab
  rcases List.mem_map.mp (List.mem_mergeSort.mp ha) with ⟨la, _, rfl⟩
  rcases List.mem_map.mp (List.mem_mergeSort.mp hb) with ⟨lb, _, rfl⟩
  simp only [supLE, decide_eq_true_eq] at hab
  simpa [aggRow, sumSupport] using hab

/-- C3 witness: the ordering claim applied to the concrete run
`average_reports [w1, w2] = wOut`. -/
theorem C3_witness :
    ∃ cls, wOut.rows = cls
        ++ [("macro avg", roundCastRow (aggRow [w1, w2] "macro avg")),
            ("weighted avg", roundCastRow (aggRow [w1, w2] "weighted avg"))] ∧
      (cls.map Prod.fst).Perm (keptLabels wLabels) ∧
      cls.Pairwise (fun a b => sumSupport [w1, w2] b.1 ≤ sumSupport [w1, w2] a.1) :=
  C3_row_ordering [w1, w2] wLabels wOut (by decide) (by decide) (by decide) (by decide)

/-- C5: for every run of `average_reports` that returns an output at all —
no validity assumptions — the rows labelled `micro avg` and `accuracy` are
absent from the output, even when they are present in every input report. -/
theorem C5_row_filtering (reports : List DF) (t : DFV)
    (hok : average_reports reports = Except.ok t) :
    "micro avg" ∉ t.rows.map Prod.fst ∧ "accuracy" ∉ t.rows.map Prod.fst := by
  unfold average_reports at hok
  cases hc : concatAxis1 reports with
  | error e =>
    rw [hc, except_bind_error] at hok
    cases hok
  | ok df0 =>
    simp only [hc, except_bind_ok] at hok
    cases h1 : df0.aggSet "support" sumQ with
    | error e =>
      rw [h1, except_bind_error] at hok
      cases hok
    | ok df1 =>
      simp only [h1, except_bind_ok] at hok
      cases h2 : df1.aggSet "precision" meanQ with
      | error e =>
        rw [h2, except_bind_error] at hok
        cases hok
      | ok df2 =>
        simp only [h2, except_bind_ok] at hok
        cases h3 : df2.aggSet "recall" meanQ with
        | error e =>
          rw [h3, except_bind_error] at hok
          cases hok
        | ok df3 =>
          simp only [h3, except_bind_ok] at hok
          cases h4 : df3.aggSet "f1-score" meanQ with
          | error e =>
            rw [h4, except_bind_error] at hok
            cases hok
          | ok df4 =>
            simp only [h4, except_bind_ok] at hok
            generalize hdf7 :
              ((df4.takeCols 4).dropRowIf "micro avg").dropRowIf "accuracy" = df7 at hok
            cases hds : df7.dropRowsStrict ["macro avg", "weighted avg"] with
            | none =>
              rw [hds] at hok
              simp only [Option.elim] at hok
              cases hok
            | some dropped =>
              rw [hds] at hok
              simp only [Option.elim] at hok
              cases hsort : dropped.sortValsDesc "support" with
              | none =>
                rw [hsort] at hok
                simp only [Option.elim] at hok
                cases hok
              | some sorted =>
                rw [hsort] at hok
                simp only [Option.elim] at hok
                cases hloc : df7.locRows ["macro avg", "weighted avg"] with
                | none =>
                  rw [hloc] at hok
                  simp only [Option.elim] at hok
                  cases hok
                | some tail =>
                  rw [hloc] at hok
                  simp only [Option.elim] at hok
                  cases Except.ok.inj hok
                  obtain ⟨x, y, htl, hxa, hyb⟩ := locRows_pair_inv hloc
                  have key : ∀ p : String × List ℚ, p ∈ sorted.rows →
                      ¬(p.1 = "micro avg") ∧ ¬(p.1 = "accuracy") := by
                    intro p hp
                    have hp2 : p ∈ dropped.rows := sortValsDesc_inv hsort p hp
                    rw [dropRowsStrict_inv hds] at hp2
                    have hp3 : p ∈ df7.rows := (List.mem_filter.mp hp2).1
                    rw [← hdf7, dropRowIf_eq] at hp3
                    simp only at hp3
                    have hp4 := List.mem_filter.mp hp3
                    have hacc : ¬(p.1 = "accuracy") := by
                      have := hp4.2
                      simpa using this
                    have hp5 := List.mem_filter.mp
                      (by simpa [dropRowIf_eq] using hp4.1 :
                        p ∈ ((df4.takeCols 4).rows.filter (fun r => !(r.1 == "micro avg"))))
                    have hmic : ¬(p.1 = "micro avg") := by
                      have := hp5.2
                      simpa using this
                    exact ⟨hmic, hacc⟩
                  have hfst : (((DF.mk sorted.colNames (sorted.rows ++ tail)).roundCols
                        ((sorted.colNames).take 3)).astypeIntCols "support").rows.map Prod.fst
                      = (sorted.rows ++ tail).map Prod.fst := by
                    unfold DF.astypeIntCols DF.roundCols
                    rw [map_fst_pairmap, map_fst_pairmap]
                  constructor
                  · intro hmem
                    rw [hfst, htl, List.map_append] at hmem
                    rcases List.mem_append.mp hmem with h | h
                    · rcases List.mem_map.mp h with ⟨p, hp, hpe⟩
                      exact (key p hp).1 hpe
                    · rcases List.mem_cons.mp h with h' | h'
                      · rw [hxa] at h'
                        exact absurd h' (by decide)
                      · rcases List.mem_cons.mp h' with h'' | h''
                        · rw [hyb] at h''
                          exact absurd h'' (by decide)
                        · cases h''
                  · intro hmem
                    rw [hfst, htl, List.map_append] at hmem
                    rcases List.mem_append.mp hmem with h | h
                    · rcases List.mem_map.mp h with ⟨p, hp, hpe⟩
                      exact (key p hp).2 hpe
                    · rcases List.mem_cons.mp h with h' | h'
                      · rw [hxa] at h'
                        exact absurd h' (by decide)
                      · rcases List.mem_cons.mp h' with h'' | h''
                        · rw [hyb] at h''
                          exact absurd h'' (by decide)
                        · cases h''

/-- C5 witness: the concrete run `average_reports [w1, w2]`, whose inputs
both contain `micro avg` and `accuracy` rows, has neither label in its
output. -/
theorem C5_witness :
    "micro avg" ∉ wOut.rows.map Prod.fst ∧ "accuracy" ∉ wOut.rows.map Prod.fst :=
  C5_row_filtering [w1, w2] wOut (by decide)

theorem mem_fst_filter {rows : List (String × List ℚ)} {p : String × List ℚ → Bool}
    {x : String} (h : x ∈ (rows.filter p).map Prod.fst) : x ∈ rows.map Prod.fst := by
  rcases List.mem_map.mp h with ⟨r, hr, rfl⟩
  exact List.mem_map_of_mem _ (List.mem_filter.mp hr).1

theorem R0_fst (r0 : DF) (labels : List String) (hlab : r0.rows.map Prod.fst = labels)
    (f : Nat → List ℚ) :
    (((List.range r0.rows.length).map
        (fun i => ((r0.rows.getD i ("", [])).1, f i))).map Prod.fst) = labels := by
  have hn : r0.rows.length = labels.length := by
    rw [← hlab, List.length_map]
  apply List.ext_getElem
  · simp [hn]
  · intro i h1 h2
    simp only [List.getElem_map, List.getElem_range]
    rw [label_eq_getD r0 hlab h2, List.getD_eq_getElem _ _ h2]

/-- C7 (amended: at least two standard-column reports sharing one label
list): when `macro avg` or `weighted avg` is missing from the shared labels
(hence from every report, hence from the concatenation), the run fails at
the reassembly step with the missing-summary-row failure. -/
theorem C7_missing_summary (reports : List DF) (labels : List String)
    (hk : 2 ≤ reports.length)
    (hcols : ∀ r ∈ reports, r.colNames = stdCols)
    (hlabs : ∀ r ∈ reports, r.rows.map Prod.fst = labels)
    (habs : "macro avg" ∉ labels ∨ "weighted avg" ∉ labels) :
    average_reports reports = Except.error Err.missingSummaryRow := by
  have hne : reports ≠ [] := by
    intro h
    rw [h] at hk
    exact absurd hk (by decide)
  obtain ⟨r0, rs, rfl⟩ := List.exists_cons_of_ne_nil hne
  have hcnt : ∀ p : String → Bool,
      (((r0 :: rs).map DF.colNames).flatten).countP p
        = (r0 :: rs).length * stdCols.countP p :=
    colNames_flatten_count _ hcols
  have hsup2 : 2 ≤ (((r0 :: rs).map DF.colNames).flatten).countP
      (fun n => n == "support") := by
    rw [hcnt, show stdCols.countP (fun n => n == "support") = 1 from by decide, Nat.mul_one]
    exact hk
  have hprec2 : 2 ≤ (((r0 :: rs).map DF.colNames).flatten).countP
      (fun n => n == "precision") := by
    rw [hcnt, show stdCols.countP (fun n => n == "precision") = 1 from by decide, Nat.mul_one]
    exact hk
  have hrec2 : 2 ≤ (((r0 :: rs).map DF.colNames).flatten).countP
      (fun n => n == "recall") := by
    rw [hcnt, show stdCols.countP (fun n => n == "recall") = 1 from by decide, Nat.mul_one]
    exact hk
  have hf12 : 2 ≤ (((r0 :: rs).map DF.colNames).flatten).countP
      (fun n => n == "f1-score") := by
    rw [hcnt, show stdCols.countP (fun n => n == "f1-score") = 1 from by decide, Nat.mul_one]
    exact hk
  have hC : concatAxis1 (r0 :: rs) = Except.ok (DF.mk
      (((r0 :: rs).map DF.colNames).flatten)
      ((List.range r0.rows.length).map (fun i =>
        ((r0.rows.getD i ("", [])).1,
         ((r0 :: rs).map (fun r => (r.rows.getD i ("", [])).2)).flatten)))) := rfl
  have hCN4 : ((((r0 :: rs).map DF.colNames).flatten).take 4) = stdCols := by
    rw [List.map_congr_left hcols, List.map_const']
    rw [List.length_cons, List.replicate_succ, List.flatten_cons]
    exact List.take_left' rfl
  have hsub : ∀ x : String,
      x ∈ (((((((((List.range r0.rows.length).map (fun i =>
            ((r0.rows.getD i ("", [])).1,
             ((r0 :: rs).map (fun r => (r.rows.getD i ("", [])).2)).flatten))).map
          (fun r => (r.1, rowStep (((r0 :: rs).map DF.colNames).flatten) "support" sumQ r.2))).map
          (fun r => (r.1, rowStep (((r0 :: rs).map DF.colNames).flatten) "precision" meanQ r.2))).map
          (fun r => (r.1, rowStep (((r0 :: rs).map DF.colNames).flatten) "recall" meanQ r.2))).map
          (fun r => (r.1, rowStep (((r0 :: rs).map DF.colNames).flatten) "f1-score" meanQ r.2))).map
          (fun r => (r.1, r.2.take 4))).filter (fun r => !(r.1 == "micro avg"))).filter
          (fun r => !(r.1 == "accuracy"))).map Prod.fst
      → x ∈ labels := by
    intro x hx
    have hx1 := mem_fst_filter (mem_fst_filter hx)
    rw [map_fst_pairmap, map_fst_pairmap, map_fst_pairmap, map_fst_pairmap,
      map_fst_pairmap] at hx1
    rw [R0_fst r0 labels (hlabs r0 (by simp)) _] at hx1
    exact hx1
  unfold average_reports
  rw [hC]
  simp only [except_bind_ok]
  rw [aggSet_ok_mk _ _ _ _ hsup2]
  simp only [except_bind_ok]
  rw [aggSet_ok_mk _ _ _ _ hprec2]
  simp only [except_bind_ok]
  rw [aggSet_ok_mk _ _ _ _ hrec2]
  simp only [except_bind_ok]
  rw [aggSet_ok_mk _ _ _ _ hf12]
  simp only [except_bind_ok]
  rw [takeCols_mk, hCN4]
  simp only [dropRowIf_mk]
  rcases habs with hmac | hwei
  · rw [dropRowsStrict_none _ _ "macro avg" (by decide)
      (hasRow_false_of_not_mem _ _ (fun hc => hmac (hsub _ hc)))]
    simp only [Option.elim]
  · rw [dropRowsStrict_none _ _ "weighted avg" (by decide)
      (hasRow_false_of_not_mem _ _ (fun hc => hwei (hsub _ hc)))]
    simp only [Option.elim]

/-- C7 witness: two reports sharing labels `A`, `macro avg` but lacking
`weighted avg` fail with the missing-summary-row error. -/
theorem C7_witness : average_reports [y7a, y7b] = Except.error Err.missingSummaryRow :=
  C7_missing_summary [y7a, y7b] ["A", "macro avg"] (by decide) (by decide) (by decide)
    (Or.inr (by decide))

/-- C7 counterexample: a single report with `macro avg` missing is in the
claim's domain, but the run fails earlier, at the metric aggregation step,
with the axis error rather than with the missing-summary-row error. -/
theorem C7_counterexample :
    "macro avg" ∉ xC7.rows.map Prod.fst ∧
    average_reports [xC7] = Except.error Err.axisError ∧
    ¬(Err.axisError = Err.missingSummaryRow) := by
  refine ⟨by decide, by decide, by decide⟩
